import Mathlib

/-
Verification development for the Lytikz event-tracking backend (src/main.py).
The core under study is: the Event data model, ingestion, bounded listing,
filtered querying, and the rule-based "ask" dispatcher.  The document store
(database.py) and the Event schema (schemas.py) are external to src/ and are
modelled from the specification (sections 4.1 and 4.2), as marked on the
corresponding definitions.
-/

set_option autoImplicit false

namespace Lytikz

/-- Primitive JSON scalar values, used inside the free-form `properties` map
(nesting is modelled to one level, which suffices for the pass-through
normalization properties proved below). -/
inductive Prim where
  | pNull
  | pBool (b : Bool)
  | pInt (n : Int)
  | pStr (s : String)
deriving DecidableEq

/-- Values a stored document field can hold.  `vInstant` models a Python
`datetime` (as an abstract instant), `vId` models the native
identifier type of the store (ObjectId). -/
inductive Value where
  | vNull
  | vBool (b : Bool)
  | vInt (n : Int)
  | vStr (s : String)
  | vInstant (t : Int)
  | vId (n : Nat)
  | vObj (entries : List (String × Prim))
  | vArr (entries : List Prim)
deriving DecidableEq

/-- A document is a Python dict: an association list of fields in insertion
order (keys unique in practice; lookups take the first occurrence). -/
abbrev Doc := List (String × Value)

/-- ASCII model of lower-casing one character, as Python `str.lower` does. -/
def lowerChar (c : Char) : Char :=
  if c.isUpper then Char.ofNat (c.toNat + 32) else c

/-- Model of Python `str.lower` (main.py line 135). -/
def pyLower (s : String) : String := String.mk (s.data.map lowerChar)

/-- Drop leading and trailing whitespace from a character list. -/
def stripList (l : List Char) : List Char :=
  (((l.dropWhile Char.isWhitespace).reverse).dropWhile Char.isWhitespace).reverse

/-- Model of Python `str.strip` (main.py line 135). -/
def pyStrip (s : String) : String := String.mk (stripList s.data)

/-- Does `hay` start with `pat`? -/
def leadsWith : List Char → List Char → Bool
  | [], _ => true
  | _ :: _, [] => false
  | a :: as, b :: bs => a == b && leadsWith as bs

/-- Does `hay` contain `pat` as a contiguous run? -/
def containsSub (pat : List Char) : List Char → Bool
  | [] => leadsWith pat []
  | c :: rest => leadsWith pat (c :: rest) || containsSub pat rest

/-- Model of the Python substring test `pat in s`. -/
def strContains (s pat : String) : Bool := containsSub pat.data s.data

/-- Models `datetime.isoformat` from the Python standard library: an injective
rendering of an instant as its ISO-8601 string. -/
def isoformat (t : Int) : String := "iso-8601-" ++ toString t

/-- Models Python `str(...)` on a stored value; only ever applied to native
identifiers by the code under study. -/
def pyStr : Value → String
  | Value.vNull => "None"
  | Value.vBool b => if b then "True" else "False"
  | Value.vInt n => toString n
  | Value.vStr s => s
  | Value.vInstant t => isoformat t
  | Value.vId n => "oid-" ++ toString n
  | Value.vObj _ => "object"
  | Value.vArr _ => "array"

/-- Remove every entry with the given key, as Python `dict.pop` does for the
(unique) occurrence. -/
def removeField (d : Doc) (k : String) : Doc := d.filter (fun p => p.1 != k)

/-- Python dict assignment `d[k] = v`: replace in place when the key exists,
otherwise append at the end. -/
def setField (d : Doc) (k : String) (v : Value) : Doc :=
  if d.any (fun p => p.1 == k) then d.map (fun p => if p.1 = k then (k, v) else p)
  else d ++ [(k, v)]

/-- Exact-match filter semantics of the store (spec 4.2): each filter entry
must be present in the document with an equal value. -/
def matchesFilter (d : Doc) (filt : Doc) : Bool :=
  filt.all (fun p => List.lookup p.1 d == some p.2)

/-- State of the opaque document store, restricted to the single "event"
collection the core uses.  `storeDown` models an unreachable store, whose
operations raise a storage failure. -/
structure Store where
  events : List Doc
  nextId : Nat
  storeDown : Bool
deriving DecidableEq

def storageFailureMsg : String := "StorageFailure: store unreachable"

/-- Modelled from the spec: database.py is not under src/.  Spec 4.2
`insert(collection, document) -> identifier`: appends one document, returns a
unique opaque identifier; the store assigns the native `_id`. -/
def create_document (st : Store) (d : Doc) : Except String (String × Store) :=
  if st.storeDown then Except.error storageFailureMsg
  else Except.ok ("oid-" ++ toString st.nextId,
    { st with events := st.events ++ [setField d "_id" (Value.vId st.nextId)],
              nextId := st.nextId + 1 })

/-- Modelled from the spec: database.py is not under src/.  Spec 4.2
`find(collection, filter, limit)`: up to `limit` matching documents in
store order. -/
def get_documents (st : Store) (filt : Doc) (lim : Nat) : Except String (List Doc) :=
  if st.storeDown then Except.error storageFailureMsg
  else Except.ok ((st.events.filter (fun d => matchesFilter d filt)).take lim)

/-- Modelled from the spec: database.py is not under src/.  Spec 4.2
`count(collection, filter)`. -/
def count_documents (st : Store) (filt : Doc) : Except String Nat :=
  if st.storeDown then Except.error storageFailureMsg
  else Except.ok ((st.events.filter (fun d => matchesFilter d filt)).length)

/-- Group key of a document for an aggregation: a missing field groups under
null, as the group stage of the store does. -/
def groupKeyOf (d : Doc) (field : String) : Value := (List.lookup field d).getD Value.vNull

/-- Number of documents falling in the group with key `k`. -/
def countKey (docs : List Doc) (field : String) (k : Value) : Nat :=
  (docs.filter (fun d => groupKeyOf d field == k)).length

/-- Distinct group keys of `docs`, in order of first occurrence. -/
def distinctKeysAux (field : String) : List Doc → List Value → List Value
  | [], acc => acc
  | d :: ds, acc =>
      distinctKeysAux field ds
        (if acc.contains (groupKeyOf d field) then acc else acc ++ [groupKeyOf d field])

def distinctKeys (docs : List Doc) (field : String) : List Value :=
  distinctKeysAux field docs []

/-- One (key, count) pair per distinct group key. -/
def groupCounts (docs : List Doc) (field : String) : List (Value × Nat) :=
  (distinctKeys docs field).map (fun k => (k, countKey docs field k))

/-- Insert into a list kept in descending order of `key`. -/
def insertByDesc {α : Type} (key : α → Int) (x : α) : List α → List α
  | [] => [x]
  | y :: ys => if key y ≤ key x then x :: y :: ys else y :: insertByDesc key x ys

/-- Sort a list into descending order of `key`. -/
def sortByDesc {α : Type} (key : α → Int) : List α → List α
  | [] => []
  | x :: xs => insertByDesc key x (sortByDesc key xs)

/-- Modelled from the spec: database.py is not under src/.  Spec 4.2
`aggregate(collection, groupField, sortDescendingByCount, limit)`: group by
the field, count members per group, sort by count descending, truncate. -/
def aggregateGroupCount (st : Store) (field : String) (lim : Nat) :
    Except String (List (Value × Nat)) :=
  if st.storeDown then Except.error storageFailureMsg
  else Except.ok ((sortByDesc (fun r => (r.2 : Int)) (groupCounts st.events field)).take lim)

/-- Request payload of POST /api/events (main.py lines 59-63): `event` is a
required string, the rest are optional with defaults. -/
structure IngestEventPayload where
  event : String
  user_id : Option String
  properties : List (String × Prim)
  timestamp : Option Int
deriving DecidableEq

/-- The persisted Event record (schemas.Event). -/
structure EventRec where
  event : String
  user_id : Option String
  properties : List (String × Prim)
  timestamp : Option Int
deriving DecidableEq

/-- Modelled from the spec: schemas.py (the Event model) is not under src/.
Spec 4.1: `event` must be present and a non-empty string; an empty value is an
input validation failure raised when the Event record is built. -/
def mkEvent (p : IngestEventPayload) : Except String EventRec :=
  if p.event = "" then Except.error "ValidationFailure: event must be a non-empty string"
  else Except.ok { event := p.event, user_id := p.user_id,
                   properties := p.properties, timestamp := p.timestamp }

def parseUserId : Option Value → Except String (Option String)
  | none => Except.ok none
  | some Value.vNull => Except.ok none
  | some (Value.vStr u) => Except.ok (some u)
  | some _ => Except.error "RequestValidation: user_id must be a string or null"

def parseProps : Option Value → Except String (List (String × Prim))
  | none => Except.ok []
  | some (Value.vObj m) => Except.ok m
  | some _ => Except.error "RequestValidation: properties must be an object"

def parseTs : Option Value → Except String (Option Int)
  | none => Except.ok none
  | some Value.vNull => Except.ok none
  | some (Value.vInstant t) => Except.ok (some t)
  | some _ => Except.error "RequestValidation: timestamp must be a datetime or null"

/-- Pydantic parsing of a request body against `IngestEventPayload`
(main.py lines 59-63): a body without a string `event` field is rejected by
the framework before the handler runs. -/
def parseIngestPayload (body : Doc) : Except String IngestEventPayload :=
  match List.lookup "event" body with
  | some (Value.vStr s) =>
      match parseUserId (List.lookup "user_id" body),
            parseProps (List.lookup "properties" body),
            parseTs (List.lookup "timestamp" body) with
      | Except.ok u, Except.ok pr, Except.ok ts =>
          Except.ok { event := s, user_id := u, properties := pr, timestamp := ts }
      | Except.error e, _, _ => Except.error e
      | _, Except.error e, _ => Except.error e
      | _, _, Except.error e => Except.error e
  | _ => Except.error "RequestValidation: event field required and must be a string"

/-- Document shape of a persisted Event (pydantic model dump passed to the
store). -/
def eventToDoc (e : EventRec) : Doc :=
  [("event", Value.vStr e.event),
   ("user_id", match e.user_id with | some u => Value.vStr u | none => Value.vNull),
   ("properties", Value.vObj e.properties),
   ("timestamp", match e.timestamp with | some t => Value.vInstant t | none => Value.vNull)]

/-- An HTTP-level failure response raised by a handler. -/
structure HTTPFailure where
  status : Nat
  detail : String
deriving DecidableEq

/-- The boundary conversion of every caught exception `e`:
`HTTPException(status_code=500, detail=str(e))` (main.py lines 76, 97, 119,
168). -/
def boundaryFailure (msg : String) : HTTPFailure := { status := 500, detail := msg }

/-- Outcome of an endpoint call: success, a framework-level request
validation rejection (happens before the handler body runs), or a failure
raised from inside the try/except boundary of the handler. -/
inductive ApiResult (α : Type) where
  | ok (a : α)
  | requestInvalid (msg : String)
  | failure (f : HTTPFailure)
deriving DecidableEq

/-- Success body of POST /api/events. -/
structure IngestOk where
  status : String
  id : String
deriving DecidableEq

/-- Handler body of POST /api/events (main.py lines 66-76): build the Event,
default a missing timestamp to the current UTC instant `now`, insert. -/
def ingest_event (now : Int) (st : Store) (p : IngestEventPayload) :
    ApiResult IngestOk × Store :=
  match mkEvent p with
  | Except.error e => (ApiResult.failure (boundaryFailure e), st)
  | Except.ok evt0 =>
      match create_document st (eventToDoc
          (match evt0.timestamp with
           | none => { evt0 with timestamp := some now }
           | some _ => evt0)) with
      | Except.error e => (ApiResult.failure (boundaryFailure e), st)
      | Except.ok (oid, st') => (ApiResult.ok { status := "ok", id := oid }, st')

/-- Full POST /api/events endpoint: framework body validation, then the
handler. -/
def ingestEndpoint (now : Int) (st : Store) (body : Doc) : ApiResult IngestOk × Store :=
  match parseIngestPayload body with
  | Except.error e => (ApiResult.requestInvalid e, st)
  | Except.ok p => ingest_event now st p

/-- Convert an instant value to its ISO string; leave anything else alone. -/
def instConv : Value → Value
  | Value.vInstant t => Value.vStr (isoformat t)
  | v => v

def isInstant : Value → Bool
  | Value.vInstant _ => true
  | _ => false

/-- Well-formedness: a stored document carries a native identifier. -/
def hasNativeId (d : Doc) : Bool :=
  match List.lookup "_id" d with
  | some (Value.vId _) => true
  | _ => false

/-- Well-formedness: instants occur only under the `timestamp` key. -/
def instantTsOnly (d : Doc) : Bool :=
  d.all (fun p => !(isInstant p.2) || (p.1 == "timestamp"))

/-- Well-formedness: a present `timestamp` field holds an instant. -/
def tsIsInstant (d : Doc) : Bool :=
  match List.lookup "timestamp" d with
  | some v => isInstant v
  | none => true

/-- The `normalize` helper shared by list and query (main.py lines 84-94 and
109-116): move `_id` to a string `id`, then render every top-level datetime
as its ISO string; everything else (including `properties`) passes through. -/
def normalize (doc : Doc) : Doc :=
  let d : Doc := match List.lookup "_id" doc with
    | some v => setField (removeField doc "_id") "id" (Value.vStr (pyStr v))
    | none => doc
  d.map (fun p => (p.1, instConv p.2))

/-- GET /api/events (main.py lines 78-97).  The `limit` query parameter is
declared `Query(50, ge=1, le=500)`: out-of-range values are rejected by the
framework, in range they reach the handler. -/
def list_events (st : Store) (limitQ : Option Int) : ApiResult (List Doc) :=
  let lim := limitQ.getD 50
  if lim < 1 ∨ 500 < lim then ApiResult.requestInvalid "limit must be in range 1..500"
  else match get_documents st [] lim.toNat with
    | Except.error e => ApiResult.failure (boundaryFailure e)
    | Except.ok docs => ApiResult.ok (docs.map normalize)

/-- POST /api/query (main.py lines 99-119): filter defaults to match-all,
limit defaults to 100 and is not validated. -/
def query_events (st : Store) (filt : Option Doc) (limitQ : Option Int) : ApiResult (List Doc) :=
  match get_documents st (filt.getD []) (limitQ.getD 100).toNat with
  | Except.error e => ApiResult.failure (boundaryFailure e)
  | Except.ok docs => ApiResult.ok (docs.map normalize)

/-- Request payload of POST /api/ask (main.py lines 122-124). -/
structure AskPayload where
  question : String
  event : Option String
deriving DecidableEq

/-- Response of POST /api/ask. -/
structure AskResponse where
  answer : String
  count : Option Nat
  items : Option (List Doc)
deriving DecidableEq

/-- Python truthiness of an `Optional[str]`: `None` and the empty string are
falsy. -/
def optTruthy : Option String → Bool
  | none => false
  | some s => s != ""

/-- The total-count trigger (main.py line 138); Python precedence reads it as
`"total" in q or ("how many" in q and ("event" in q or payload.event))`. -/
def totalCond (q : String) (ev : Option String) : Bool :=
  strContains q "total" || (strContains q "how many" && (strContains q "event" || optTruthy ev))

/-- The by-user trigger (main.py line 142). -/
def byUserCond (q : String) : Bool :=
  strContains q "by user" || strContains q "per user"

/-- The by-event trigger (main.py line 151). -/
def byEventCond (q : String) : Bool :=
  strContains q "by event" || strContains q "per event" || strContains q "events by name"

/-- The count filter (main.py line 139):
`{"event": payload.event} if payload.event else {}` — Python truthiness, so a
supplied empty string behaves like `None`. -/
def askFilt (ev : Option String) : Doc :=
  if optTruthy ev then [("event", Value.vStr (ev.getD ""))] else []

/-- Sort key used by the fallback sort on timestamp, descending. -/
def tsOf (d : Doc) : Int :=
  match List.lookup "timestamp" d with
  | some (Value.vInstant t) => t
  | _ => 0

def projKeys : List String := ["_id", "event", "user_id", "timestamp"]

/-- The find projection of the fallback: keep `event`, `user_id`, `timestamp`,
and (implicitly, per the default of the store) the native `_id`. -/
def projectRecent (d : Doc) : Doc := d.filter (fun p => projKeys.contains p.1)

/-- Modelled from the spec: the cursor pipeline of the store is not under src/.
Models `find({}, projection).sort("timestamp", -1).limit(20)` at main.py
line 161 against the opaque store. -/
def findRecent (st : Store) : Except String (List Doc) :=
  if st.storeDown then Except.error storageFailureMsg
  else Except.ok (((sortByDesc tsOf st.events).take 20).map projectRecent)

/-- Per-item rewrite of the fallback loop (main.py lines 162-165):
`r["id"] = str(r.pop("_id"))` (a missing `_id` raises KeyError), then render
a datetime timestamp as ISO. -/
def normalizeAskItem (d : Doc) : Except String Doc :=
  match List.lookup "_id" d with
  | none => Except.error "KeyError: _id"
  | some v =>
      Except.ok
        (match List.lookup "timestamp" (setField (removeField d "_id") "id" (Value.vStr (pyStr v))) with
         | some (Value.vInstant t) =>
             setField (setField (removeField d "_id") "id" (Value.vStr (pyStr v)))
               "timestamp" (Value.vStr (isoformat t))
         | _ => setField (removeField d "_id") "id" (Value.vStr (pyStr v)))

def normalizeAskItems : List Doc → Except String (List Doc)
  | [] => Except.ok []
  | d :: ds =>
      match normalizeAskItem d, normalizeAskItems ds with
      | Except.ok x, Except.ok xs => Except.ok (x :: xs)
      | Except.error e, _ => Except.error e
      | _, Except.error e => Except.error e

/-- POST /api/ask (main.py lines 126-168): classify the lower-cased, stripped
question in fixed priority order and execute the matching strategy. -/
def ask_question (st : Store) (p : AskPayload) : ApiResult AskResponse :=
  let q := pyStrip (pyLower p.question)
  if totalCond q p.event then
    match count_documents st (askFilt p.event) with
    | Except.error e => ApiResult.failure (boundaryFailure e)
    | Except.ok c =>
        ApiResult.ok ⟨"Total events: " ++ toString c, some c, none⟩
  else if byUserCond q then
    match aggregateGroupCount st "user_id" 20 with
    | Except.error e => ApiResult.failure (boundaryFailure e)
    | Except.ok res =>
        ApiResult.ok ⟨"Events by user", none,
          some (res.map (fun r => [("user_id", r.1), ("count", Value.vInt (r.2 : Int))]))⟩
  else if byEventCond q then
    match aggregateGroupCount st "event" 50 with
    | Except.error e => ApiResult.failure (boundaryFailure e)
    | Except.ok res =>
        ApiResult.ok ⟨"Events by event name", none,
          some (res.map (fun r => [("event", r.1), ("count", Value.vInt (r.2 : Int))]))⟩
  else
    match findRecent st with
    | Except.error e => ApiResult.failure (boundaryFailure e)
    | Except.ok recent =>
        match normalizeAskItems recent with
        | Except.error e => ApiResult.failure (boundaryFailure e)
        | Except.ok its =>
            ApiResult.ok ⟨"Showing recent events", none, some its⟩

/-- Discriminator for successful endpoint outcomes. -/
def isOk {α : Type} : ApiResult α → Bool
  | ApiResult.ok _ => true
  | _ => false

/-- Number of stored documents matching a filter (the value `count` returns
on a reachable store). -/
def countMatching (st : Store) (filt : Doc) : Nat :=
  (st.events.filter (fun d => matchesFilter d filt)).length



/-- The normalized-document contract of spec section 6: a string `id`, no
native `_id`, and no unconverted instant field. -/
def normalizedItem (d : Doc) : Prop :=
  (∃ s, List.lookup "id" d = some (Value.vStr s)) ∧
  List.lookup "_id" d = none ∧
  ∀ p ∈ d, isInstant p.2 = false

section AssocLemmas

theorem lookup_cons (k : String) (p : String × Value) (tl : Doc) :
    List.lookup k (p :: tl) = if k = p.1 then some p.2 else List.lookup k tl := by
  by_cases h : k = p.1
  · simp [List.lookup, show (k == p.1) = true by simp [h], h]
  · simp [List.lookup, show (k == p.1) = false by simp [h], h]

theorem lookup_map_val (f : Value → Value) (k : String) (d : Doc) :
    List.lookup k (d.map (fun p => (p.1, f p.2))) = (List.lookup k d).map f := by
  induction d with
  | nil => rfl
  | cons p tl ih =>
      by_cases h : k = p.1 <;> simp [lookup_cons, h, ih]

theorem lookup_removeField_self (k : String) (d : Doc) :
    List.lookup k (removeField d k) = none := by
  induction d with
  | nil => rfl
  | cons p tl ih =>
      by_cases h : p.1 = k
      · simpa [removeField, List.filter_cons, h] using ih
      · have h1 : (p.1 != k) = true := by simp [h]
        simp only [removeField, List.filter_cons, h1, if_true] at ih ⊢
        simpa [lookup_cons, Ne.symm h] using ih

theorem lookup_removeField_ne (k k' : String) (d : Doc) (h : k ≠ k') :
    List.lookup k (removeField d k') = List.lookup k d := by
  induction d with
  | nil => rfl
  | cons p tl ih =>
      by_cases hp : p.1 = k'
      · have h1 : (p.1 != k') = false := by simp [hp]
        have h2 : k ≠ p.1 := fun hk => h (hk.trans hp)
        simp only [removeField, List.filter_cons, h1] at ih ⊢
        simpa [lookup_cons, h2] using ih
      · have h1 : (p.1 != k') = true := by simp [hp]
        simp only [removeField, List.filter_cons, h1, if_true] at ih ⊢
        by_cases hk : k = p.1 <;> simp [lookup_cons, hk, ih]

theorem lookup_append_of_none (k : String) (d₁ d₂ : Doc)
    (h : List.lookup k d₁ = none) :
    List.lookup k (d₁ ++ d₂) = List.lookup k d₂ := by
  induction d₁ with
  | nil => rfl
  | cons p tl ih =>
      by_cases hk : k = p.1
      · simp [lookup_cons, hk] at h
      · simp only [lookup_cons, hk, if_false] at h
        simpa [lookup_cons, hk] using ih h

theorem lookup_of_not_any (k : String) (d : Doc)
    (hany : ¬ d.any (fun p => p.1 == k)) : List.lookup k d = none := by
  induction d with
  | nil => rfl
  | cons p tl ih =>
      simp only [List.any_cons, Bool.or_eq_true, not_or, beq_iff_eq] at hany
      have h2 : k ≠ p.1 := fun hk => hany.1 hk.symm
      simp only [lookup_cons, h2, if_false]
      exact ih (by simpa using hany.2)

theorem lookup_replaceKey_self (k : String) (v : Value) (d : Doc)
    (hin : List.lookup k d ≠ none) :
    List.lookup k (d.map (fun p => if p.1 = k then (k, v) else p)) = some v := by
  induction d with
  | nil => simp [List.lookup] at hin
  | cons p tl ih =>
      by_cases hp : p.1 = k
      · simp [lookup_cons, hp]
      · have h2 : k ≠ p.1 := Ne.symm hp
        simp only [lookup_cons, h2, if_false] at hin
        simpa [lookup_cons, hp, h2] using ih hin

theorem lookup_replaceKey_ne (k k' : String) (v : Value) (d : Doc) (h : k ≠ k') :
    List.lookup k (d.map (fun p => if p.1 = k' then (k', v) else p)) = List.lookup k d := by
  induction d with
  | nil => rfl
  | cons p tl ih =>
      by_cases hp : p.1 = k'
      · have h2 : k ≠ p.1 := fun hk => h (hk.trans hp)
        simp [lookup_cons, hp, h, h2, ih]
      · by_cases hk : k = p.1 <;> simp [lookup_cons, hp, hk, ih]

theorem lookup_append_single_ne (k k' : String) (v : Value) (d : Doc) (h : k ≠ k') :
    List.lookup k (d ++ [(k', v)]) = List.lookup k d := by
  induction d with
  | nil =>
      rw [List.nil_append, lookup_cons]
      simp [h, List.lookup]
  | cons p tl ih => by_cases hk : k = p.1 <;> simp [lookup_cons, hk, ih]

theorem any_key_iff (k : String) (d : Doc) :
    d.any (fun p => p.1 == k) = true ↔ List.lookup k d ≠ none := by
  induction d with
  | nil => simp [List.lookup]
  | cons p tl ih =>
      by_cases hp : p.1 = k
      · simp [lookup_cons, hp, List.any_cons]
      · have h2 : k ≠ p.1 := Ne.symm hp
        simp [lookup_cons, hp, h2, List.any_cons, ih]

theorem lookup_setField_self (k : String) (v : Value) (d : Doc) :
    List.lookup k (setField d k v) = some v := by
  unfold setField
  by_cases hany : d.any (fun p => p.1 == k)
  · rw [if_pos hany]
    exact lookup_replaceKey_self k v d ((any_key_iff k d).mp hany)
  · rw [if_neg hany]
    rw [lookup_append_of_none k d _ (lookup_of_not_any k d hany)]
    simp [lookup_cons]

theorem lookup_setField_ne (k k' : String) (v : Value) (d : Doc) (h : k ≠ k') :
    List.lookup k (setField d k' v) = List.lookup k d := by
  unfold setField
  by_cases hany : d.any (fun p => p.1 == k')
  · rw [if_pos hany]
    exact lookup_replaceKey_ne k k' v d h
  · rw [if_neg hany]
    exact lookup_append_single_ne k k' v d h

theorem mem_setField (p : String × Value) (k : String) (v : Value) (d : Doc)
    (h : p ∈ setField d k v) : p = (k, v) ∨ (p.1 ≠ k ∧ p ∈ d) := by
  unfold setField at h
  by_cases hany : d.any (fun q => q.1 == k)
  · rw [if_pos hany] at h
    simp only [List.mem_map] at h
    obtain ⟨q, hq, hqe⟩ := h
    by_cases hqk : q.1 = k
    · left; simp [hqk] at hqe; exact hqe.symm
    · right; simp [hqk] at hqe; exact ⟨hqe ▸ hqk, hqe ▸ hq⟩
  · rw [if_neg hany] at h
    simp only [List.mem_append, List.mem_singleton] at h
    rcases h with h | h
    · right
      refine ⟨?_, h⟩
      intro hk
      exact hany (List.any_eq_true.mpr ⟨p, h, by simp [hk]⟩)
    · exact Or.inl h

theorem mem_removeField (p : String × Value) (k : String) (d : Doc)
    (h : p ∈ removeField d k) : p ∈ d :=
  List.mem_of_mem_filter h

end AssocLemmas

section WfLemmas

theorem hasNativeId_spec (d : Doc) (h : hasNativeId d = true) :
    ∃ n, List.lookup "_id" d = some (Value.vId n) := by
  unfold hasNativeId at h
  cases hid : List.lookup "_id" d with
  | none => rw [hid] at h; cases h
  | some v =>
      rw [hid] at h
      cases v <;> try cases h
      case some.vId.refl n => exact ⟨n, rfl⟩

theorem tsIsInstant_spec (d : Doc) (h : tsIsInstant d = true) (v : Value)
    (hv : List.lookup "timestamp" d = some v) : ∃ t, v = Value.vInstant t := by
  unfold tsIsInstant at h
  rw [hv] at h
  cases v <;> try cases h
  case vInstant t => exact ⟨t, rfl⟩

theorem instantTsOnly_spec (d : Doc) (h : instantTsOnly d = true) (q : String × Value)
    (hq : q ∈ d) (hi : isInstant q.2 = true) : q.1 = "timestamp" := by
  unfold instantTsOnly at h
  rw [List.all_eq_true] at h
  have h2 := h q hq
  rw [hi] at h2
  simpa using h2

end WfLemmas

section SortLemmas

variable {α : Type}

theorem mem_insertByDesc (key : α → Int) (x a : α) (l : List α) :
    a ∈ insertByDesc key x l ↔ a = x ∨ a ∈ l := by
  induction l with
  | nil => simp [insertByDesc]
  | cons y ys ih =>
      by_cases h : key y ≤ key x
      · simp [insertByDesc, h]
      · simp only [insertByDesc, h, if_false, List.mem_cons, ih]
        tauto

theorem length_insertByDesc (key : α → Int) (x : α) (l : List α) :
    (insertByDesc key x l).length = l.length + 1 := by
  induction l with
  | nil => rfl
  | cons y ys ih =>
      by_cases h : key y ≤ key x <;> simp [insertByDesc, h, ih]

theorem mem_sortByDesc (key : α → Int) (a : α) (l : List α) :
    a ∈ sortByDesc key l ↔ a ∈ l := by
  induction l with
  | nil => simp [sortByDesc]
  | cons y ys ih => simp [sortByDesc, mem_insertByDesc, ih]

theorem length_sortByDesc (key : α → Int) (l : List α) :
    (sortByDesc key l).length = l.length := by
  induction l with
  | nil => rfl
  | cons y ys ih => simp [sortByDesc, length_insertByDesc, ih]

theorem pairwise_insertByDesc (key : α → Int) (x : α) (l : List α)
    (h : l.Pairwise (fun a b => key b ≤ key a)) :
    (insertByDesc key x l).Pairwise (fun a b => key b ≤ key a) := by
  induction l with
  | nil => simp [insertByDesc]
  | cons y ys ih =>
      rcases List.pairwise_cons.mp h with ⟨hy, hys⟩
      by_cases hle : key y ≤ key x
      · rw [insertByDesc, if_pos hle]
        refine List.pairwise_cons.mpr ⟨?_, h⟩
        intro z hz
        rcases List.mem_cons.mp hz with rfl | hz
        · exact hle
        · exact le_trans (hy z hz) hle
      · rw [insertByDesc, if_neg hle]
        refine List.pairwise_cons.mpr ⟨?_, ih hys⟩
        intro z hz
        rcases (mem_insertByDesc key x z ys).mp hz with rfl | hz
        · exact le_of_not_le hle
        · exact hy z hz

theorem pairwise_sortByDesc (key : α → Int) (l : List α) :
    (sortByDesc key l).Pairwise (fun a b => key b ≤ key a) := by
  induction l with
  | nil => simp [sortByDesc]
  | cons y ys ih => exact pairwise_insertByDesc key y _ ih

end SortLemmas

section AggLemmas

theorem mem_distinctKeysAux (field : String) (ds : List Doc) (acc : List Value) (x : Value) :
    x ∈ distinctKeysAux field ds acc ↔ x ∈ acc ∨ ∃ d ∈ ds, groupKeyOf d field = x := by
  induction ds generalizing acc with
  | nil => simp [distinctKeysAux]
  | cons d ds ih =>
      simp only [distinctKeysAux]
      by_cases hc : acc.contains (groupKeyOf d field)
      · rw [if_pos hc, ih]
        have hmem : groupKeyOf d field ∈ acc := by simpa using hc
        constructor
        · rintro (h | h)
          · exact Or.inl h
          · exact Or.inr ⟨h.choose, List.mem_cons_of_mem d h.choose_spec.1, h.choose_spec.2⟩
        · rintro (h | ⟨e, he, hk⟩)
          · exact Or.inl h
          · rcases List.mem_cons.mp he with rfl | he2
            · exact Or.inl (hk ▸ hmem)
            · exact Or.inr ⟨e, he2, hk⟩
      · rw [if_neg hc, ih]
        simp only [List.mem_append, List.mem_cons, List.not_mem_nil, or_false]
        constructor
        · rintro ((h | h) | ⟨e, he, hk⟩)
          · exact Or.inl h
          · exact Or.inr ⟨d, Or.inl rfl, h.symm⟩
          · exact Or.inr ⟨e, Or.inr he, hk⟩
        · rintro (h | ⟨e, he, hk⟩)
          · exact Or.inl (Or.inl h)
          · rcases he with rfl | he2
            · exact Or.inl (Or.inr hk.symm)
            · exact Or.inr ⟨e, he2, hk⟩

theorem mem_distinctKeys (docs : List Doc) (field : String) (x : Value) :
    x ∈ distinctKeys docs field ↔ ∃ d ∈ docs, groupKeyOf d field = x := by
  rw [distinctKeys, mem_distinctKeysAux]
  simp

theorem mem_distinctKeys_of_countKey_ne (docs : List Doc) (field : String) (k : Value)
    (h : countKey docs field k ≠ 0) : k ∈ distinctKeys docs field := by
  rcases List.exists_mem_of_length_pos (Nat.pos_of_ne_zero h) with ⟨d, hd⟩
  have h1 := List.mem_of_mem_filter hd
  have h2 := List.of_mem_filter hd
  rw [beq_iff_eq] at h2
  exact (mem_distinctKeys docs field k).mpr ⟨d, h1, h2⟩

theorem mem_groupCounts_of_countKey_ne (docs : List Doc) (field : String) (k : Value)
    (h : countKey docs field k ≠ 0) :
    (k, countKey docs field k) ∈ groupCounts docs field :=
  List.mem_map.mpr ⟨k, mem_distinctKeys_of_countKey_ne docs field k h, rfl⟩

end AggLemmas

section NormalizeLemmas

theorem instConv_not_instant (v : Value) : isInstant (instConv v) = false := by
  cases v <;> rfl

theorem normalize_lookup_ne (doc : Doc) (k : String) (h1 : k ≠ "id") (h2 : k ≠ "_id") :
    List.lookup k (normalize doc) = (List.lookup k doc).map instConv := by
  simp only [normalize]
  cases hid : List.lookup "_id" doc with
  | none => rw [lookup_map_val]
  | some v =>
      rw [lookup_map_val, lookup_setField_ne _ _ _ _ h1, lookup_removeField_ne _ _ _ h2]

theorem normalize_id (doc : Doc) (v : Value) (hid : List.lookup "_id" doc = some v) :
    List.lookup "id" (normalize doc) = some (Value.vStr (pyStr v)) := by
  simp only [normalize, hid]
  rw [lookup_map_val, lookup_setField_self]
  rfl

theorem normalize_no_native_id (doc : Doc) :
    List.lookup "_id" (normalize doc) = none := by
  simp only [normalize]
  cases hid : List.lookup "_id" doc with
  | none => rw [lookup_map_val, hid]; rfl
  | some v =>
      rw [lookup_map_val, lookup_setField_ne _ _ _ _ (by decide),
        lookup_removeField_self]
      rfl

theorem normalize_no_instant (doc : Doc) (p : String × Value) (hp : p ∈ normalize doc) :
    isInstant p.2 = false := by
  simp only [normalize, List.mem_map] at hp
  obtain ⟨q, _, hqe⟩ := hp
  rw [← hqe]
  exact instConv_not_instant q.2

theorem normalize_normalizedItem (doc : Doc) (hid : hasNativeId doc = true) :
    normalizedItem (normalize doc) := by
  obtain ⟨n, hn⟩ := hasNativeId_spec doc hid
  exact ⟨⟨pyStr (Value.vId n), normalize_id doc _ hn⟩, normalize_no_native_id doc,
    fun p hp => normalize_no_instant doc p hp⟩

end NormalizeLemmas

section IngestLemmas

/-- The Event record an accepted payload is completed to: a missing
timestamp defaults to the acceptance instant `now`. -/
def completeEvent (now : Int) (p : IngestEventPayload) : EventRec :=
  { event := p.event, user_id := p.user_id, properties := p.properties,
    timestamp := some (p.timestamp.getD now) }

theorem ingest_event_ok (now : Int) (st : Store) (p : IngestEventPayload)
    (hne : p.event ≠ "") (hdown : st.storeDown = false) :
    ingest_event now st p =
      (ApiResult.ok ⟨"ok", "oid-" ++ toString st.nextId⟩,
       { st with
         events := st.events ++
           [setField (eventToDoc (completeEvent now p)) "_id" (Value.vId st.nextId)],
         nextId := st.nextId + 1 }) := by
  unfold ingest_event mkEvent create_document
  rw [if_neg hne]
  cases hts : p.timestamp <;>
    simp [hdown, completeEvent, hts, Option.getD]

theorem ingest_event_validation_err (now : Int) (st : Store) (p : IngestEventPayload)
    (e : String) (h : mkEvent p = Except.error e) :
    ingest_event now st p = (ApiResult.failure (boundaryFailure e), st) := by
  unfold ingest_event
  rw [h]

theorem ingest_event_storage_err (now : Int) (st : Store) (p : IngestEventPayload)
    (hne : p.event ≠ "") (hdown : st.storeDown = true) :
    ingest_event now st p = (ApiResult.failure (boundaryFailure storageFailureMsg), st) := by
  unfold ingest_event mkEvent create_document
  rw [if_neg hne]
  simp [hdown]

theorem parseIngestPayload_inv (body : Doc) (p : IngestEventPayload)
    (h : parseIngestPayload body = Except.ok p) :
    List.lookup "event" body = some (Value.vStr p.event) ∧
    parseTs (List.lookup "timestamp" body) = Except.ok p.timestamp := by
  unfold parseIngestPayload at h
  cases hev : List.lookup "event" body <;> rw [hev] at h
  · cases h
  case some v =>
    cases v <;> try cases h
    case vStr s =>
      cases hu : parseUserId (List.lookup "user_id" body) <;> rw [hu] at h <;>
        cases hpr : parseProps (List.lookup "properties" body) <;> rw [hpr] at h <;>
          cases hts : parseTs (List.lookup "timestamp" body) <;> rw [hts] at h <;>
            try cases h
      case ok.ok.ok u pr ts =>
        exact ⟨rfl, rfl⟩

theorem parseTs_none (body : Doc)
    (h : List.lookup "timestamp" body = none ∨ List.lookup "timestamp" body = some Value.vNull) :
    parseTs (List.lookup "timestamp" body) = Except.ok none := by
  rcases h with h | h <;> rw [h] <;> rfl

theorem lookup_ts_eventToDoc (e : EventRec) (t : Int) (n : Nat) (h : e.timestamp = some t) :
    List.lookup "timestamp" (setField (eventToDoc e) "_id" (Value.vId n)) =
      some (Value.vInstant t) := by
  unfold eventToDoc setField
  simp [lookup_cons, h, List.lookup]

end IngestLemmas

section AskLemmas

theorem ask_question_total_branch (st : Store) (p : AskPayload)
    (h : totalCond (pyStrip (pyLower p.question)) p.event = true)
    (hdown : st.storeDown = false) :
    ask_question st p = ApiResult.ok
      ⟨"Total events: " ++ toString (countMatching st (askFilt p.event)),
       some (countMatching st (askFilt p.event)), none⟩ := by
  unfold ask_question count_documents
  simp [h, hdown, countMatching]

theorem ask_question_by_user_branch (st : Store) (p : AskPayload)
    (h1 : totalCond (pyStrip (pyLower p.question)) p.event = false)
    (h2 : byUserCond (pyStrip (pyLower p.question)) = true)
    (hdown : st.storeDown = false) :
    ask_question st p = ApiResult.ok ⟨"Events by user", none,
      some (((sortByDesc (fun r => (r.2 : Int)) (groupCounts st.events "user_id")).take 20).map
        (fun r => [("user_id", r.1), ("count", Value.vInt (r.2 : Int))]))⟩ := by
  unfold ask_question aggregateGroupCount
  simp [h1, h2, hdown]

theorem ask_question_by_event_branch (st : Store) (p : AskPayload)
    (h1 : totalCond (pyStrip (pyLower p.question)) p.event = false)
    (h2 : byUserCond (pyStrip (pyLower p.question)) = false)
    (h3 : byEventCond (pyStrip (pyLower p.question)) = true)
    (hdown : st.storeDown = false) :
    ask_question st p = ApiResult.ok ⟨"Events by event name", none,
      some (((sortByDesc (fun r => (r.2 : Int)) (groupCounts st.events "event")).take 50).map
        (fun r => [("event", r.1), ("count", Value.vInt (r.2 : Int))]))⟩ := by
  unfold ask_question aggregateGroupCount
  simp [h1, h2, h3, hdown]

theorem ask_question_fallback_raw (st : Store) (p : AskPayload)
    (h1 : totalCond (pyStrip (pyLower p.question)) p.event = false)
    (h2 : byUserCond (pyStrip (pyLower p.question)) = false)
    (h3 : byEventCond (pyStrip (pyLower p.question)) = false)
    (hdown : st.storeDown = false) :
    ask_question st p =
      (match normalizeAskItems (((sortByDesc tsOf st.events).take 20).map projectRecent) with
       | Except.error e => ApiResult.failure (boundaryFailure e)
       | Except.ok its => ApiResult.ok ⟨"Showing recent events", none, some its⟩) := by
  unfold ask_question findRecent
  simp [h1, h2, h3, hdown]

theorem ask_question_storeDown (st : Store) (p : AskPayload)
    (hdown : st.storeDown = true) :
    ask_question st p = ApiResult.failure (boundaryFailure storageFailureMsg) := by
  unfold ask_question count_documents aggregateGroupCount findRecent
  by_cases h1 : totalCond (pyStrip (pyLower p.question)) p.event <;>
    by_cases h2 : byUserCond (pyStrip (pyLower p.question)) <;>
      by_cases h3 : byEventCond (pyStrip (pyLower p.question)) <;>
        simp [h1, h2, h3, hdown]

end AskLemmas

section FallbackLemmas

theorem mem_removeField_ne (q : String × Value) (k : String) (d : Doc)
    (h : q ∈ removeField d k) : q.1 ≠ k ∧ q ∈ d := by
  refine ⟨?_, List.mem_of_mem_filter h⟩
  have := List.of_mem_filter h
  simpa using this

theorem lookup_ne_none_of_mem (q : String × Value) (d : Doc) (h : q ∈ d) :
    List.lookup q.1 d ≠ none := by
  induction d with
  | nil => cases h
  | cons p tl ih =>
      rcases List.mem_cons.mp h with rfl | h2
      · simp [lookup_cons]
      · by_cases hk : q.1 = p.1 <;> simp [lookup_cons, hk, ih h2]

theorem lookup_filter_keys (pred : String → Bool) (k : String) (d : Doc)
    (hk : pred k = true) :
    List.lookup k (d.filter (fun p => pred p.1)) = List.lookup k d := by
  induction d with
  | nil => rfl
  | cons p tl ih =>
      by_cases hpk : k = p.1
      · have hp : pred p.1 = true := by rw [← hpk]; exact hk
        simp [List.filter_cons, hp, lookup_cons, hpk]
      · by_cases hp : pred p.1 <;>
          simp [List.filter_cons, hp, lookup_cons, hpk, ih]

theorem mem_projectRecent (q : String × Value) (d : Doc) (h : q ∈ projectRecent d) :
    q ∈ d ∧ projKeys.contains q.1 = true := by
  unfold projectRecent at h
  have h2 := List.of_mem_filter h
  exact ⟨List.mem_of_mem_filter h, h2⟩

theorem projectRecent_lookup (k : String) (d : Doc) (hk : projKeys.contains k = true) :
    List.lookup k (projectRecent d) = List.lookup k d :=
  lookup_filter_keys (fun s => projKeys.contains s) k d hk

theorem normalizeAskItem_spec (d : Doc) (n : Nat)
    (hid : List.lookup "_id" d = some (Value.vId n))
    (hts : tsIsInstant d = true) (hio : instantTsOnly d = true) :
    ∃ it, normalizeAskItem d = Except.ok it ∧
      List.lookup "id" it = some (Value.vStr (pyStr (Value.vId n))) ∧
      List.lookup "_id" it = none ∧
      (∀ v, List.lookup "timestamp" it = some v → ∃ t, v = Value.vStr (isoformat t)) ∧
      (∀ q ∈ it, q.1 = "id" ∨ q.1 = "timestamp" ∨ (q.1 ≠ "_id" ∧ q ∈ d)) ∧
      (∀ q ∈ it, isInstant q.2 = false) := by
  have hd1id : List.lookup "id"
      (setField (removeField d "_id") "id" (Value.vStr (pyStr (Value.vId n)))) =
      some (Value.vStr (pyStr (Value.vId n))) := lookup_setField_self _ _ _
  have hd1nid : List.lookup "_id"
      (setField (removeField d "_id") "id" (Value.vStr (pyStr (Value.vId n)))) = none := by
    rw [lookup_setField_ne _ _ _ _ (by decide), lookup_removeField_self]
  have hd1ts : List.lookup "timestamp"
      (setField (removeField d "_id") "id" (Value.vStr (pyStr (Value.vId n)))) =
      List.lookup "timestamp" d := by
    rw [lookup_setField_ne _ _ _ _ (by decide), lookup_removeField_ne _ _ _ (by decide)]
  have hmemd1 : ∀ q ∈ setField (removeField d "_id") "id" (Value.vStr (pyStr (Value.vId n))),
      q = ("id", Value.vStr (pyStr (Value.vId n))) ∨ (q.1 ≠ "_id" ∧ q.1 ≠ "id" ∧ q ∈ d) := by
    intro q hq
    rcases mem_setField q _ _ _ hq with h | ⟨hne, hq2⟩
    · exact Or.inl h
    · rcases mem_removeField_ne q _ _ hq2 with ⟨hne2, hq3⟩
      exact Or.inr ⟨hne2, hne, hq3⟩
  cases hcase : List.lookup "timestamp" d with
  | none =>
      have hok : normalizeAskItem d =
          Except.ok (setField (removeField d "_id") "id" (Value.vStr (pyStr (Value.vId n)))) := by
        unfold normalizeAskItem
        simp [hid, hd1ts, hcase]
      refine ⟨_, hok, hd1id, hd1nid, ?_, ?_, ?_⟩
      · intro v hv
        rw [hd1ts, hcase] at hv
        cases hv
      · intro q hq
        rcases hmemd1 q hq with h | ⟨hne, _, hq2⟩
        · exact Or.inl (by rw [h])
        · exact Or.inr (Or.inr ⟨hne, hq2⟩)
      · intro q hq
        rcases hmemd1 q hq with h | ⟨_, _, hq2⟩
        · rw [h]; rfl
        · by_contra hbad
          have hinst : isInstant q.2 = true := by
            cases hi : isInstant q.2
            · exact absurd hi hbad
            · rfl
          have hkts := instantTsOnly_spec d hio q hq2 hinst
          have := lookup_ne_none_of_mem q d hq2
          rw [hkts] at this
          exact this hcase
  | some v0 =>
      obtain ⟨t, rfl⟩ := tsIsInstant_spec d hts v0 hcase
      have hok : normalizeAskItem d =
          Except.ok (setField
            (setField (removeField d "_id") "id" (Value.vStr (pyStr (Value.vId n))))
            "timestamp" (Value.vStr (isoformat t))) := by
        unfold normalizeAskItem
        simp [hid, hd1ts, hcase]
      refine ⟨_, hok, ?_, ?_, ?_, ?_, ?_⟩
      · rw [lookup_setField_ne _ _ _ _ (by decide)]
        exact hd1id
      · rw [lookup_setField_ne _ _ _ _ (by decide)]
        exact hd1nid
      · intro v hv
        rw [lookup_setField_self] at hv
        exact ⟨t, (Option.some_injective _ hv).symm⟩
      · intro q hq
        rcases mem_setField q _ _ _ hq with h | ⟨hne, hq2⟩
        · exact Or.inr (Or.inl (by rw [h]))
        · rcases hmemd1 q hq2 with h | ⟨hne2, _, hq3⟩
          · exact Or.inl (by rw [h])
          · exact Or.inr (Or.inr ⟨hne2, hq3⟩)
      · intro q hq
        rcases mem_setField q _ _ _ hq with h | ⟨hne, hq2⟩
        · rw [h]; rfl
        · rcases hmemd1 q hq2 with h | ⟨hne2, _, hq3⟩
          · rw [h]; rfl
          · by_contra hbad
            have hinst : isInstant q.2 = true := by
              cases hi : isInstant q.2
              · exact absurd hi hbad
              · rfl
            exact hne (instantTsOnly_spec d hio q hq3 hinst)

theorem normalizeAskItems_spec (ds : List Doc)
    (h : ∀ d ∈ ds, hasNativeId d = true ∧ tsIsInstant d = true ∧ instantTsOnly d = true) :
    ∃ its, normalizeAskItems ds = Except.ok its ∧ its.length = ds.length ∧
      ∀ it ∈ its,
        (∃ s, List.lookup "id" it = some (Value.vStr s)) ∧
        List.lookup "_id" it = none ∧
        (∀ v, List.lookup "timestamp" it = some v → ∃ t, v = Value.vStr (isoformat t)) ∧
        (∃ d ∈ ds, ∀ q ∈ it, q.1 = "id" ∨ q.1 = "timestamp" ∨ (q.1 ≠ "_id" ∧ q ∈ d)) ∧
        (∀ q ∈ it, isInstant q.2 = false) := by
  induction ds with
  | nil => exact ⟨[], rfl, rfl, by simp⟩
  | cons d ds ih =>
      obtain ⟨hid0, hts, hio⟩ := h d (List.mem_cons_self d ds)
      obtain ⟨n, hid⟩ := hasNativeId_spec d hid0
      obtain ⟨it, hok, hprops⟩ := normalizeAskItem_spec d n hid hts hio
      obtain ⟨its, hoks, hlen, hall⟩ := ih (fun d2 hd2 => h d2 (List.mem_cons_of_mem d hd2))
      refine ⟨it :: its, ?_, by simp [hlen], ?_⟩
      · unfold normalizeAskItems
        rw [hok, hoks]
      · intro it2 hit2
        rcases List.mem_cons.mp hit2 with rfl | hit3
        · obtain ⟨ha, hb, hc, hd, he⟩ := hprops
          exact ⟨⟨_, ha⟩, hb, hc, ⟨d, List.mem_cons_self d ds, hd⟩, he⟩
        · obtain ⟨ha, hb, hc, ⟨d2, hd2, hd3⟩, he⟩ := hall it2 hit3
          exact ⟨ha, hb, hc, ⟨d2, List.mem_cons_of_mem d hd2, hd3⟩, he⟩

theorem projected_wf (st : Store)
    (hwf : ∀ d ∈ st.events,
      hasNativeId d = true ∧ tsIsInstant d = true ∧ instantTsOnly d = true) :
    ∀ d2 ∈ ((sortByDesc tsOf st.events).take 20).map projectRecent,
      hasNativeId d2 = true ∧ tsIsInstant d2 = true ∧ instantTsOnly d2 = true := by
  intro d2 hd2
  obtain ⟨d0, hd0, rfl⟩ := List.mem_map.mp hd2
  have hd0m : d0 ∈ st.events :=
    (mem_sortByDesc tsOf d0 st.events).mp (List.take_subset _ _ hd0)
  obtain ⟨ha, hb, hc⟩ := hwf d0 hd0m
  refine ⟨?_, ?_, ?_⟩
  · unfold hasNativeId at ha ⊢
    rw [projectRecent_lookup "_id" d0 (by decide)]
    exact ha
  · unfold tsIsInstant at hb ⊢
    rw [projectRecent_lookup "timestamp" d0 (by decide)]
    exact hb
  · unfold instantTsOnly at hc ⊢
    rw [List.all_eq_true] at hc ⊢
    intro q hq
    exact hc q (mem_projectRecent q d0 hq).1

end FallbackLemmas

section Fixtures

/-- A stored document as ingestion produces it, used as a concrete fixture. -/
def sampleDoc : Doc :=
  [("event", Value.vStr "signup"), ("user_id", Value.vNull),
   ("properties", Value.vObj []), ("timestamp", Value.vInstant 5), ("_id", Value.vId 0)]

def sampleStore : Store := ⟨[sampleDoc], 1, false⟩

def emptyStore : Store := ⟨[], 0, false⟩

end Fixtures

/-- C1: for every question whose lower-cased, trimmed text contains both
"total" and "by user", ask resolves to the total-count intent — it returns an
answer of the form "Total events: c" together with a count field — and not to
the by-user intent, because the total rule is checked first. -/
theorem c1_ask_priority_total_over_by_user (st : Store) (p : AskPayload)
    (hdown : st.storeDown = false)
    (htot : strContains (pyStrip (pyLower p.question)) "total" = true)
    (_hby : strContains (pyStrip (pyLower p.question)) "by user" = true) :
    ∃ c : Nat, ask_question st p =
      ApiResult.ok ⟨"Total events: " ++ toString c, some c, none⟩ := by
  refine ⟨countMatching st (askFilt p.event), ?_⟩
  apply ask_question_total_branch st p ?_ hdown
  unfold totalCond
  rw [htot]
  rfl

/-- Witness for C1 at the example question given in the spec "total events by user". -/
theorem c1_witness :
    ∃ c : Nat, ask_question sampleStore ⟨"total events by user", none⟩ =
      ApiResult.ok ⟨"Total events: " ++ toString c, some c, none⟩ :=
  c1_ask_priority_total_over_by_user sampleStore ⟨"total events by user", none⟩ rfl
    (by decide) (by decide)

/-- C2 counterexample: Python truthiness breaks the claim for the supplied
empty-string eventFilter.  With question "total" and eventFilter "", the code
counts with the EMPTY filter (answer counts the one stored event), while the
claimed filter event = "" matches nothing; and with question "how many" plus
the supplied eventFilter "" the total-count branch is not taken at all — the
fallback answers instead. -/
theorem c2_counterexample :
    ask_question sampleStore ⟨"total", some ""⟩ =
      ApiResult.ok ⟨"Total events: 1", some 1, none⟩ ∧
    countMatching sampleStore [("event", Value.vStr "")] = 0 ∧
    ask_question sampleStore ⟨"how many", some ""⟩ =
      ApiResult.ok ⟨"Showing recent events", none,
        some [[("event", Value.vStr "signup"), ("user_id", Value.vNull),
               ("timestamp", Value.vStr (isoformat 5)), ("id", Value.vStr "oid-0")]]⟩ := by
  refine ⟨by decide, by decide, by decide⟩

/-- C2 (amended): the total-count branch is taken iff the lower-cased trimmed
text contains "total", or it contains "how many" and (it contains "event" or
a NON-EMPTY eventFilter was supplied — Python truthiness); in that branch the
count uses the filter event = eventFilter when the supplied eventFilter is
non-empty and the empty filter otherwise, and the answer is
"Total events: c" with that count; when the condition fails, whatever
response is produced carries no count field. -/
theorem c2_total_branch_characterization (st : Store) (p : AskPayload)
    (hdown : st.storeDown = false) :
    (totalCond (pyStrip (pyLower p.question)) p.event = true →
      ask_question st p = ApiResult.ok
        ⟨"Total events: " ++ toString (countMatching st (askFilt p.event)),
         some (countMatching st (askFilt p.event)), none⟩) ∧
    (totalCond (pyStrip (pyLower p.question)) p.event = false →
      ∀ r, ask_question st p = ApiResult.ok r → r.count = none) := by
  constructor
  · intro h
    exact ask_question_total_branch st p h hdown
  · intro h r hr
    by_cases h2 : byUserCond (pyStrip (pyLower p.question))
    · rw [ask_question_by_user_branch st p h h2 hdown] at hr
      cases hr
      rfl
    · by_cases h3 : byEventCond (pyStrip (pyLower p.question))
      · rw [ask_question_by_event_branch st p h (by simpa using h2) h3 hdown] at hr
        cases hr
        rfl
      · rw [ask_question_fallback_raw st p h (by simpa using h2) (by simpa using h3) hdown] at hr
        cases hnorm : normalizeAskItems (((sortByDesc tsOf st.events).take 20).map projectRecent) with
        | error e => rw [hnorm] at hr; cases hr
        | ok its => rw [hnorm] at hr; cases hr; rfl

/-- Witness for C2: both directions at concrete inputs. -/
theorem c2_witness :
    ask_question sampleStore ⟨"total", none⟩ = ApiResult.ok
      ⟨"Total events: " ++ toString (countMatching sampleStore (askFilt none)),
       some (countMatching sampleStore (askFilt none)), none⟩ ∧
    (⟨"Showing recent events", none, some []⟩ : AskResponse).count = none :=
  ⟨(c2_total_branch_characterization sampleStore ⟨"total", none⟩ rfl).1 (by decide),
   (c2_total_branch_characterization emptyStore ⟨"hello", none⟩ rfl).2 (by decide)
     ⟨"Showing recent events", none, some []⟩ (by decide)⟩

/-- C3: a request body whose event field is missing, or equal to the empty
string, is rejected — the endpoint does not succeed and no event is
persisted (the store is unchanged). -/
theorem c3_reject_missing_or_empty_event (now : Int) (st : Store) (body : Doc)
    (h : List.lookup "event" body = none ∨ List.lookup "event" body = some (Value.vStr "")) :
    isOk (ingestEndpoint now st body).1 = false ∧ (ingestEndpoint now st body).2 = st := by
  rcases h with h | h
  · unfold ingestEndpoint parseIngestPayload
    rw [h]
    exact ⟨rfl, rfl⟩
  · unfold ingestEndpoint
    cases hp : parseIngestPayload body with
    | error e => exact ⟨rfl, rfl⟩
    | ok p =>
        have hev := (parseIngestPayload_inv body p hp).1
        rw [h] at hev
        have he : p.event = "" := by
          simp only [Option.some.injEq, Value.vStr.injEq] at hev
          exact hev.symm
        show isOk (ingest_event now st p).1 = false ∧ (ingest_event now st p).2 = st
        rw [ingest_event_validation_err now st p _ (by unfold mkEvent; rw [if_pos he])]
        exact ⟨rfl, rfl⟩

/-- Witness for C3: a body with no event field, and a body with an empty
event, are both rejected without touching the store. -/
theorem c3_witness :
    (isOk (ingestEndpoint 0 sampleStore [("user_id", Value.vStr "u")]).1 = false ∧
      (ingestEndpoint 0 sampleStore [("user_id", Value.vStr "u")]).2 = sampleStore) ∧
    (isOk (ingestEndpoint 0 sampleStore [("event", Value.vStr "")]).1 = false ∧
      (ingestEndpoint 0 sampleStore [("event", Value.vStr "")]).2 = sampleStore) :=
  ⟨c3_reject_missing_or_empty_event 0 sampleStore [("user_id", Value.vStr "u")]
      (Or.inl (by decide)),
   c3_reject_missing_or_empty_event 0 sampleStore [("event", Value.vStr "")]
      (Or.inr (by decide))⟩

/-- C10: ingestion is atomic on validation error — when building the Event
fails (empty event name), or the request body fails payload validation, the
call fails and the store is left unchanged, the insert never happening. -/
theorem c10_atomic_validation_failure (now : Int) (st : Store) (p : IngestEventPayload)
    (body : Doc) (e e2 : String) :
    (mkEvent p = Except.error e →
      ingest_event now st p = (ApiResult.failure (boundaryFailure e), st)) ∧
    (parseIngestPayload body = Except.error e2 →
      ingestEndpoint now st body = (ApiResult.requestInvalid e2, st)) := by
  constructor
  · intro h
    exact ingest_event_validation_err now st p e h
  · intro h
    unfold ingestEndpoint
    rw [h]

/-- Witness for C10 at a concrete invalid payload and body. -/
theorem c10_witness :
    ingest_event 0 sampleStore ⟨"", none, [], none⟩ =
      (ApiResult.failure
        (boundaryFailure "ValidationFailure: event must be a non-empty string"), sampleStore) ∧
    ingestEndpoint 0 sampleStore [] =
      (ApiResult.requestInvalid
        "RequestValidation: event field required and must be a string", sampleStore) :=
  ⟨(c10_atomic_validation_failure 0 sampleStore ⟨"", none, [], none⟩ []
      "ValidationFailure: event must be a non-empty string"
      "RequestValidation: event field required and must be a string").1 rfl,
   (c10_atomic_validation_failure 0 sampleStore ⟨"", none, [], none⟩ []
      "ValidationFailure: event must be a non-empty string"
      "RequestValidation: event field required and must be a string").2 rfl⟩

def downStore : Store := ⟨[], 0, true⟩

def longDetailMsg : String :=
  "storage adapter rejected the write after exhausting every retry path"

/-- C9 counterexample: the boundary conversion keeps the exception text in
full — a 68-character message comes through with all 68 characters, so the
failure response does NOT carry a truncated message (no truncation bound
below the full length, in particular not the 50-character cut the diagnostic
endpoint uses). -/
theorem c9_counterexample :
    (boundaryFailure longDetailMsg).detail = longDetailMsg ∧
    longDetailMsg.length = 68 ∧
    ¬ (boundaryFailure longDetailMsg).detail.length < longDetailMsg.length ∧
    ¬ (boundaryFailure longDetailMsg).detail.length ≤ 50 := by
  exact ⟨rfl, by decide, by decide, by decide⟩

/-- C9 (amended): every failure caught at the boundary of ingest, list,
query, or ask is converted into the single generic failure shape — status
500 with the exception message carried verbatim (NOT truncated) — with no
distinction between validation and storage causes. -/
theorem c9_generic_boundary_failure (msg : String) (st : Store) (p : IngestEventPayload)
    (q : AskPayload) (now : Int) :
    boundaryFailure msg = ⟨500, msg⟩ ∧
    (∀ e, mkEvent p = Except.error e →
      (ingest_event now st p).1 = ApiResult.failure ⟨500, e⟩) ∧
    (p.event ≠ "" → st.storeDown = true →
      (ingest_event now st p).1 = ApiResult.failure ⟨500, storageFailureMsg⟩) ∧
    (st.storeDown = true →
      list_events st none = ApiResult.failure ⟨500, storageFailureMsg⟩) ∧
    (st.storeDown = true →
      query_events st none none = ApiResult.failure ⟨500, storageFailureMsg⟩) ∧
    (st.storeDown = true →
      ask_question st q = ApiResult.failure ⟨500, storageFailureMsg⟩) := by
  refine ⟨rfl, ?_, ?_, ?_, ?_, ?_⟩
  · intro e h
    rw [ingest_event_validation_err now st p e h]
    rfl
  · intro hne hdown
    rw [ingest_event_storage_err now st p hne hdown]
    rfl
  · intro hdown
    unfold list_events get_documents
    simp [hdown]
    rfl
  · intro hdown
    unfold query_events get_documents
    simp [hdown]
    rfl
  · intro hdown
    rw [ask_question_storeDown st q hdown]
    rfl

/-- Witness for C9: the validation cause and the storage cause at concrete
inputs both collapse to the same generic status-500 failure shape. -/
theorem c9_witness :
    boundaryFailure "boom" = ⟨500, "boom"⟩ ∧
    (ingest_event 0 emptyStore ⟨"", none, [], none⟩).1 =
      ApiResult.failure ⟨500, "ValidationFailure: event must be a non-empty string"⟩ ∧
    (ingest_event 0 downStore ⟨"signup", none, [], none⟩).1 =
      ApiResult.failure ⟨500, storageFailureMsg⟩ ∧
    list_events downStore none = ApiResult.failure ⟨500, storageFailureMsg⟩ ∧
    query_events downStore none none = ApiResult.failure ⟨500, storageFailureMsg⟩ ∧
    ask_question downStore ⟨"total", none⟩ = ApiResult.failure ⟨500, storageFailureMsg⟩ :=
  ⟨(c9_generic_boundary_failure "boom" emptyStore ⟨"", none, [], none⟩ ⟨"total", none⟩ 0).1,
   (c9_generic_boundary_failure "boom" emptyStore ⟨"", none, [], none⟩ ⟨"total", none⟩ 0).2.1
     "ValidationFailure: event must be a non-empty string" rfl,
   (c9_generic_boundary_failure "boom" downStore ⟨"signup", none, [], none⟩ ⟨"total", none⟩ 0).2.2.1
     (by decide) rfl,
   (c9_generic_boundary_failure "boom" downStore ⟨"signup", none, [], none⟩ ⟨"total", none⟩ 0).2.2.2.1 rfl,
   (c9_generic_boundary_failure "boom" downStore ⟨"signup", none, [], none⟩ ⟨"total", none⟩ 0).2.2.2.2.1 rfl,
   (c9_generic_boundary_failure "boom" downStore ⟨"signup", none, [], none⟩ ⟨"total", none⟩ 0).2.2.2.2.2 rfl⟩

/-- C8: list rejects every limit outside the inclusive range 1..500 as a
caller input error (no clamping — the request fails instead of being served
with an adjusted limit), accepts every limit inside the range, and defaults
to 50 when the limit is omitted; query performs no limit validation at all —
it accepts any limit — and defaults to 100. -/
theorem c8_limit_policies (st : Store) (l : Int) (f : Option Doc)
    (hdown : st.storeDown = false) :
    ((l < 1 ∨ 500 < l) →
      list_events st (some l) = ApiResult.requestInvalid "limit must be in range 1..500") ∧
    (1 ≤ l → l ≤ 500 → ∃ items, list_events st (some l) = ApiResult.ok items) ∧
    list_events st none = list_events st (some 50) ∧
    (∃ items, query_events st f (some l) = ApiResult.ok items) ∧
    query_events st f none = query_events st f (some 100) := by
  refine ⟨?_, ?_, rfl, ?_, rfl⟩
  · intro h
    unfold list_events
    rw [if_pos]
    exact h
  · intro h1 h2
    unfold list_events get_documents
    rw [if_neg (by push_neg; exact ⟨h1, h2⟩), if_neg (by simp [hdown])]
    exact ⟨_, rfl⟩
  · unfold query_events get_documents
    rw [if_neg (by simp [hdown])]
    exact ⟨_, rfl⟩

/-- Witness for C8: limit 0 and 501 rejected, limit 1 and 500 accepted,
query accepts limit 0. -/
theorem c8_witness :
    (list_events sampleStore (some 0) = ApiResult.requestInvalid "limit must be in range 1..500") ∧
    (list_events sampleStore (some 501) = ApiResult.requestInvalid "limit must be in range 1..500") ∧
    (∃ items, list_events sampleStore (some 1) = ApiResult.ok items) ∧
    (∃ items, list_events sampleStore (some 500) = ApiResult.ok items) ∧
    (∃ items, query_events sampleStore none (some 0) = ApiResult.ok items) :=
  ⟨(c8_limit_policies sampleStore 0 none rfl).1 (by decide),
   (c8_limit_policies sampleStore 501 none rfl).1 (by decide),
   (c8_limit_policies sampleStore 1 none rfl).2.1 (by decide) (by decide),
   (c8_limit_policies sampleStore 500 none rfl).2.1 (by decide) (by decide),
   (c8_limit_policies sampleStore 0 none rfl).2.2.2.1⟩

/-- C4: every successful ingest appends exactly one document to the store,
whose timestamp field holds an instant (never null); and when the request
body omitted the timestamp (absent or null), that instant is the acceptance
instant `now`. -/
theorem c4_timestamp_never_null (now : Int) (st : Store) (body : Doc) (a : IngestOk)
    (h : (ingestEndpoint now st body).1 = ApiResult.ok a) :
    ∃ d t, (ingestEndpoint now st body).2.events = st.events ++ [d] ∧
      List.lookup "timestamp" d = some (Value.vInstant t) ∧
      ((List.lookup "timestamp" body = none ∨ List.lookup "timestamp" body = some Value.vNull) →
        t = now) := by
  unfold ingestEndpoint at h ⊢
  cases hp : parseIngestPayload body with
  | error e =>
      rw [hp] at h
      simp at h
  | ok p =>
      rw [hp] at h
      show ∃ d t, (ingest_event now st p).2.events = st.events ++ [d] ∧
        List.lookup "timestamp" d = some (Value.vInstant t) ∧
        ((List.lookup "timestamp" body = none ∨ List.lookup "timestamp" body = some Value.vNull) →
          t = now)
      replace h : (ingest_event now st p).1 = ApiResult.ok a := h
      by_cases hne : p.event = ""
      · rw [ingest_event_validation_err now st p _ (by unfold mkEvent; rw [if_pos hne])] at h
        cases h
      · cases hdown : st.storeDown with
        | true => rw [ingest_event_storage_err now st p hne hdown] at h; cases h
        | false =>
            rw [ingest_event_ok now st p hne hdown]
            refine ⟨_, p.timestamp.getD now, rfl, ?_, ?_⟩
            · exact lookup_ts_eventToDoc (completeEvent now p) _ st.nextId rfl
            · intro hb
              have hts := (parseIngestPayload_inv body p hp).2
              rw [parseTs_none body hb] at hts
              injection hts with h2
              rw [← h2]
              rfl

/-- Witness for C4 at a concrete body with no timestamp. -/
theorem c4_witness :
    ∃ d t, (ingestEndpoint 7 emptyStore [("event", Value.vStr "signup")]).2.events =
        emptyStore.events ++ [d] ∧
      List.lookup "timestamp" d = some (Value.vInstant t) ∧
      ((List.lookup "timestamp" [(("event" : String), Value.vStr "signup")] = none ∨
        List.lookup "timestamp" [(("event" : String), Value.vStr "signup")] = some Value.vNull) →
        t = 7) :=
  c4_timestamp_never_null 7 emptyStore [("event", Value.vStr "signup")] ⟨"ok", "oid-0"⟩ (by decide)

/-- C5: every question matching none of the three rules (the empty question
included) succeeds through the fallback intent: answer "Showing recent
events", at most 20 items drawn from the events sorted by timestamp
descending, each projected to the event, user_id and timestamp fields plus a
string id, with the timestamp rendered as an ISO-8601 string.  The store
hypotheses are the invariants ingestion maintains (documents carry a native
id, instants appear only in the timestamp field). -/
theorem c5_fallback_intent (st : Store) (p : AskPayload)
    (hdown : st.storeDown = false)
    (h1 : totalCond (pyStrip (pyLower p.question)) p.event = false)
    (h2 : byUserCond (pyStrip (pyLower p.question)) = false)
    (h3 : byEventCond (pyStrip (pyLower p.question)) = false)
    (hwf : ∀ d ∈ st.events,
      hasNativeId d = true ∧ tsIsInstant d = true ∧ instantTsOnly d = true) :
    ∃ its, ask_question st p = ApiResult.ok ⟨"Showing recent events", none, some its⟩ ∧
      its.length ≤ 20 ∧
      ((sortByDesc tsOf st.events).take 20).Pairwise (fun a b => tsOf b ≤ tsOf a) ∧
      normalizeAskItems (((sortByDesc tsOf st.events).take 20).map projectRecent) =
        Except.ok its ∧
      ∀ it ∈ its,
        (∃ s, List.lookup "id" it = some (Value.vStr s)) ∧
        List.lookup "_id" it = none ∧
        (∀ q ∈ it, q.1 = "event" ∨ q.1 = "user_id" ∨ q.1 = "timestamp" ∨ q.1 = "id") ∧
        (∀ v, List.lookup "timestamp" it = some v → ∃ t, v = Value.vStr (isoformat t)) := by
  obtain ⟨its, hok, hlen, hall⟩ := normalizeAskItems_spec _ (projected_wf st hwf)
  refine ⟨its, ?_, ?_, ?_, hok, ?_⟩
  · rw [ask_question_fallback_raw st p h1 h2 h3 hdown, hok]
  · rw [hlen, List.length_map, List.length_take]
    exact min_le_left _ _
  · exact (pairwise_sortByDesc tsOf st.events).sublist (List.take_sublist _ _)
  · intro it hit
    obtain ⟨ha, hb, hc, ⟨d2, hd2, hdm⟩, _⟩ := hall it hit
    refine ⟨ha, hb, ?_, hc⟩
    intro q hq
    rcases hdm q hq with h | h | ⟨hne, hqd⟩
    · exact Or.inr (Or.inr (Or.inr h))
    · exact Or.inr (Or.inr (Or.inl h))
    · obtain ⟨d0, _, rfl⟩ := List.mem_map.mp hd2
      have hcont : q.1 ∈ projKeys := by
        simpa using (mem_projectRecent q d0 hqd).2
      unfold projKeys at hcont
      simp only [List.mem_cons, List.not_mem_nil, or_false] at hcont
      rcases hcont with h | h | h | h
      · exact absurd h hne
      · exact Or.inl h
      · exact Or.inr (Or.inl h)
      · exact Or.inr (Or.inr (Or.inl h))

/-- Witness for C5 at the unrecognized question from the spec "asdkjasdlkj". -/
theorem c5_witness :
    ∃ its, ask_question sampleStore ⟨"asdkjasdlkj", none⟩ =
        ApiResult.ok ⟨"Showing recent events", none, some its⟩ ∧
      its.length ≤ 20 ∧
      ((sortByDesc tsOf sampleStore.events).take 20).Pairwise (fun a b => tsOf b ≤ tsOf a) ∧
      normalizeAskItems (((sortByDesc tsOf sampleStore.events).take 20).map projectRecent) =
        Except.ok its ∧
      ∀ it ∈ its,
        (∃ s, List.lookup "id" it = some (Value.vStr s)) ∧
        List.lookup "_id" it = none ∧
        (∀ q ∈ it, q.1 = "event" ∨ q.1 = "user_id" ∨ q.1 = "timestamp" ∨ q.1 = "id") ∧
        (∀ v, List.lookup "timestamp" it = some v → ∃ t, v = Value.vStr (isoformat t)) :=
  c5_fallback_intent sampleStore ⟨"asdkjasdlkj", none⟩ rfl (by decide) (by decide)
    (by decide) (by decide)

/-- One stored event attributed to user `i`, for the C6 counterexample. -/
def userEventDoc (i : Nat) : Doc :=
  [("event", Value.vStr "e"), ("user_id", Value.vStr ("u" ++ toString i))]

/-- Twenty users with two events each, plus one anonymous event: 21 groups,
of which the null-keyed group has the smallest count. -/
def bigStore : Store :=
  ⟨((List.range 20).flatMap (fun i => [userEventDoc i, userEventDoc i])) ++
    [[("event", Value.vStr "e")]], 0, false⟩

/-- C6 counterexample: the store holds exactly one anonymous event (null
group key), but the by-user answer contains NO null-keyed item — the null
group is sorted last among 21 groups and dropped by the 20-group
truncation, contradicting the claim that anonymous events always appear in
a null-keyed group of the result. -/
theorem c6_counterexample :
    (bigStore.events.filter (fun d => groupKeyOf d "user_id" == Value.vNull)).length = 1 ∧
    (match ask_question bigStore ⟨"events by user", none⟩ with
     | ApiResult.ok r => (r.items.getD []).all
         (fun item => List.lookup "user_id" item != some Value.vNull)
     | _ => false) = true := by
  exact ⟨by decide, by decide⟩

/-- C6 (amended): for a question triggering the by-user rule (and not the
total rule), ask groups the events by user_id, sorts the groups descending
by count, truncates to 20, and returns items user_id/count; null is
preserved as a valid group key — the null group carries the exact count of
anonymous events — and it appears in the result whenever it is within the
first 20 sorted groups, in particular whenever there are at most 20
distinct user_id values. -/
theorem c6_by_user_aggregation (st : Store) (p : AskPayload)
    (hdown : st.storeDown = false)
    (h1 : totalCond (pyStrip (pyLower p.question)) p.event = false)
    (h2 : byUserCond (pyStrip (pyLower p.question)) = true) :
    ∃ res, res = (sortByDesc (fun r => (r.2 : Int)) (groupCounts st.events "user_id")).take 20 ∧
      ask_question st p = ApiResult.ok ⟨"Events by user", none,
        some (res.map (fun r => [("user_id", r.1), ("count", Value.vInt (r.2 : Int))]))⟩ ∧
      res.length ≤ 20 ∧
      res.Pairwise (fun a b => (b.2 : Int) ≤ (a.2 : Int)) ∧
      (countKey st.events "user_id" Value.vNull ≠ 0 →
        (distinctKeys st.events "user_id").length ≤ 20 →
        (Value.vNull, countKey st.events "user_id" Value.vNull) ∈ res) := by
  refine ⟨_, rfl, ask_question_by_user_branch st p h1 h2 hdown, ?_, ?_, ?_⟩
  · rw [List.length_take]
    exact min_le_left _ _
  · exact (pairwise_sortByDesc (fun (r : Value × Nat) => (r.2 : Int))
      (groupCounts st.events "user_id")).sublist (List.take_sublist _ _)
  · intro hnz hle
    have hmemg := mem_groupCounts_of_countKey_ne st.events "user_id" Value.vNull hnz
    have hmems : (Value.vNull, countKey st.events "user_id" Value.vNull) ∈
        sortByDesc (fun r => (r.2 : Int)) (groupCounts st.events "user_id") :=
      (mem_sortByDesc _ _ _).mpr hmemg
    have hlen2 : (sortByDesc (fun r => (r.2 : Int))
        (groupCounts st.events "user_id")).length ≤ 20 := by
      rw [length_sortByDesc]
      unfold groupCounts
      rw [List.length_map]
      exact hle
    rw [List.take_of_length_le hlen2]
    exact hmems

/-- Witness for C6 at a store with two users and one anonymous event. -/
theorem c6_witness :
    ∃ res, res = (sortByDesc (fun r => (r.2 : Int))
        (groupCounts (⟨[[("user_id", Value.vStr "u1")], [("user_id", Value.vStr "u1")],
          [("user_id", Value.vNull)]], 0, false⟩ : Store).events "user_id")).take 20 ∧
      ask_question (⟨[[("user_id", Value.vStr "u1")], [("user_id", Value.vStr "u1")],
          [("user_id", Value.vNull)]], 0, false⟩ : Store) ⟨"count by user", none⟩ =
        ApiResult.ok ⟨"Events by user", none,
          some (res.map (fun r => [("user_id", r.1), ("count", Value.vInt (r.2 : Int))]))⟩ ∧
      res.length ≤ 20 ∧
      res.Pairwise (fun a b => (b.2 : Int) ≤ (a.2 : Int)) ∧
      (countKey (⟨[[("user_id", Value.vStr "u1")], [("user_id", Value.vStr "u1")],
          [("user_id", Value.vNull)]], 0, false⟩ : Store).events "user_id" Value.vNull ≠ 0 →
        (distinctKeys (⟨[[("user_id", Value.vStr "u1")], [("user_id", Value.vStr "u1")],
          [("user_id", Value.vNull)]], 0, false⟩ : Store).events "user_id").length ≤ 20 →
        (Value.vNull, countKey (⟨[[("user_id", Value.vStr "u1")], [("user_id", Value.vStr "u1")],
          [("user_id", Value.vNull)]], 0, false⟩ : Store).events "user_id" Value.vNull) ∈ res) :=
  c6_by_user_aggregation (⟨[[("user_id", Value.vStr "u1")], [("user_id", Value.vStr "u1")],
    [("user_id", Value.vNull)]], 0, false⟩ : Store) ⟨"count by user", none⟩ rfl
    (by decide) (by decide)

/-- C7: the normalization rule.  First, the shared normalize helper moves the
native identifier to a string id and converts every top-level instant to its
ISO string while passing every other field through unchanged (nested
property maps included, since only top-level instants are rewritten).
Second, on a well-formed store every item returned by list, by query, and by
the ask fallback is normalized: string id present, no native identifier
field, no unconverted instant field. -/
theorem c7_normalization_rule (st : Store)
    (hdown : st.storeDown = false)
    (hwf : ∀ d ∈ st.events,
      hasNativeId d = true ∧ tsIsInstant d = true ∧ instantTsOnly d = true) :
    (∀ doc k, k ≠ "id" → k ≠ "_id" →
      List.lookup k (normalize doc) = (List.lookup k doc).map instConv) ∧
    (∀ limitQ items, list_events st limitQ = ApiResult.ok items →
      ∀ it ∈ items, normalizedItem it) ∧
    (∀ f limitQ items, query_events st f limitQ = ApiResult.ok items →
      ∀ it ∈ items, normalizedItem it) ∧
    (∀ p r its, totalCond (pyStrip (pyLower p.question)) p.event = false →
      byUserCond (pyStrip (pyLower p.question)) = false →
      byEventCond (pyStrip (pyLower p.question)) = false →
      ask_question st p = ApiResult.ok r → r.items = some its →
      ∀ it ∈ its, normalizedItem it) := by
  refine ⟨fun doc k hk1 hk2 => normalize_lookup_ne doc k hk1 hk2, ?_, ?_, ?_⟩
  · intro limitQ items hl it hit
    simp only [list_events] at hl
    split at hl
    · cases hl
    · unfold get_documents at hl
      rw [if_neg (by simp [hdown])] at hl
      simp only [] at hl
      replace hl : ApiResult.ok
          (((st.events.filter (fun d => matchesFilter d [])).take
            (limitQ.getD 50).toNat).map normalize) = ApiResult.ok items := hl
      injection hl with hl2
      rw [← hl2] at hit
      obtain ⟨doc, hdoc, rfl⟩ := List.mem_map.mp hit
      have hdocm : doc ∈ st.events := List.mem_of_mem_filter (List.take_subset _ _ hdoc)
      exact normalize_normalizedItem doc (hwf doc hdocm).1
  · intro f limitQ items hl it hit
    unfold query_events get_documents at hl
    rw [if_neg (by simp [hdown])] at hl
    replace hl : ApiResult.ok
        (((st.events.filter (fun d => matchesFilter d (f.getD []))).take
          (limitQ.getD 100).toNat).map normalize) = ApiResult.ok items := hl
    injection hl with hl2
    rw [← hl2] at hit
    obtain ⟨doc, hdoc, rfl⟩ := List.mem_map.mp hit
    have hdocm : doc ∈ st.events := List.mem_of_mem_filter (List.take_subset _ _ hdoc)
    exact normalize_normalizedItem doc (hwf doc hdocm).1
  · intro p r its h1 h2 h3 hr hits it hit
    obtain ⟨its2, hok, _, hall⟩ := normalizeAskItems_spec _ (projected_wf st hwf)
    rw [ask_question_fallback_raw st p h1 h2 h3 hdown, hok] at hr
    replace hr : ApiResult.ok
        (⟨"Showing recent events", none, some its2⟩ : AskResponse) = ApiResult.ok r := hr
    injection hr with hr2
    rw [← hr2] at hits
    replace hits : some its2 = some its := hits
    injection hits with hits2
    rw [← hits2] at hit
    obtain ⟨ha, hb, _, _, he⟩ := hall it hit
    exact ⟨ha, hb, he⟩

/-- Witness for C7 at the sample store. -/
theorem c7_witness :
    (∀ doc k, k ≠ "id" → k ≠ "_id" →
      List.lookup k (normalize doc) = (List.lookup k doc).map instConv) ∧
    (∀ limitQ items, list_events sampleStore limitQ = ApiResult.ok items →
      ∀ it ∈ items, normalizedItem it) ∧
    (∀ f limitQ items, query_events sampleStore f limitQ = ApiResult.ok items →
      ∀ it ∈ items, normalizedItem it) ∧
    (∀ p r its, totalCond (pyStrip (pyLower p.question)) p.event = false →
      byUserCond (pyStrip (pyLower p.question)) = false →
      byEventCond (pyStrip (pyLower p.question)) = false →
      ask_question sampleStore p = ApiResult.ok r → r.items = some its →
      ∀ it ∈ its, normalizedItem it) :=
  c7_normalization_rule sampleStore rfl (by decide)

end Lytikz